import Mathlib

/-!
Verification development for the dxd-cdn Cloudflare worker
(`src/index.js`).  The worker serves files from GitHub repositories,
resolving version specifiers (release tags, commit hashes, the `latest`
alias), filling an R2 durable cache and the edge cache, and shaping the
HTTP response (minification, gzip compression, ETag / conditional-request
handling).

The JavaScript is embedded shallowly: every network or storage
collaborator (GitHub release lookup, commit lookup, raw-file fetch, the
minifiers, the R2 bucket, the edge cache) is an explicit oracle or an
explicit piece of state, and each `async function` of the source becomes
a pure Lean function over those oracles.  Thrown exceptions become
`Option`/`Except` values.  Response bodies are kept as the pre-compression
text together with a boolean recording whether gzip was applied.
-/

set_option maxRecDepth 4096

namespace DxdCdn

/-! ## JavaScript string primitives -/

/-- One step of JS `String.prototype.replace` with a *string* pattern
and an empty replacement: remove the first occurrence of `pat`, or
return the list unchanged when `pat` does not occur. -/
def listReplaceFirst (s pat : List Char) : List Char :=
  match s with
  | [] => []
  | c :: rest =>
    if pat.isPrefixOf (c :: rest) then (c :: rest).drop pat.length
    else c :: listReplaceFirst rest pat

/-- JS `s.replace(pat, empty)` for a plain-string `pat` (first
occurrence only). -/
def jsReplaceFirst (s pat : String) : String :=
  ⟨listReplaceFirst s.data pat.data⟩

/-- Occurrence test on character lists, used for JS `String.includes`. -/
def listIsInfixOf (pat : List Char) : List Char → Bool
  | [] => pat.isEmpty
  | c :: rest => pat.isPrefixOf (c :: rest) || listIsInfixOf pat rest

/-- JS `s.includes(sub)`. -/
def strIncludes (s sub : String) : Bool :=
  listIsInfixOf sub.data s.data

/-- JS `s.startsWith(pat)` (char-list based so the kernel can evaluate
it). -/
def strStartsWith (s pat : String) : Bool :=
  pat.data.isPrefixOf s.data

/-- JS `s.endsWith(pat)`. -/
def strEndsWith (s pat : String) : Bool :=
  pat.data.isSuffixOf s.data

/-- JS `s.substring(0, n)`. -/
def strTake (s : String) (n : Nat) : String :=
  ⟨s.data.take n⟩

/-- JS `s.length` (code-unit length; all strings handled here are
ASCII). -/
def strLength (s : String) : Nat :=
  s.data.length

/-- JS `s.toLowerCase()`. -/
def strToLower (s : String) : String :=
  ⟨s.data.map Char.toLower⟩

/-- JS `version.replace` with the regex `/^v/`: strip one leading `v`
if present. -/
def stripLeadingV (s : String) : String :=
  if strStartsWith s "v" then ⟨s.data.drop 1⟩ else s

/-- JS `s.split(sep)` for a one-character separator, on char lists. -/
def listSplitOnChar (sep : Char) : List Char → List (List Char)
  | [] => [[]]
  | c :: rest =>
    let r := listSplitOnChar sep rest
    if c = sep then [] :: r
    else
      match r with
      | [] => [[c]]
      | h :: t => (c :: h) :: t

/-- JS `s.split(sep)` for a one-character separator. -/
def strSplitOnChar (sep : Char) (s : String) : List String :=
  (listSplitOnChar sep s.data).map (fun l => ⟨l⟩)

/-- JS `parts.join` with a slash separator. -/
def strJoinSlash : List String → String
  | [] => ""
  | [x] => x
  | x :: xs => x ++ "/" ++ strJoinSlash xs

/-- JS `filePath.split(dot).pop().toLowerCase()`. -/
def fileExtension (filePath : String) : String :=
  strToLower (((strSplitOnChar '.' filePath).getLast?).getD "")

/-! ## Content-type table (`CONTENT_TYPES` in `src/index.js`) -/

def CONTENT_TYPES : String → Option String
  | "js" => some "application/javascript; charset=utf-8"
  | "css" => some "text/css; charset=utf-8"
  | "html" => some "text/html; charset=utf-8"
  | "json" => some "application/json; charset=utf-8"
  | "png" => some "image/png"
  | "jpg" => some "image/jpeg"
  | "jpeg" => some "image/jpeg"
  | "gif" => some "image/gif"
  | "svg" => some "image/svg+xml"
  | "webp" => some "image/webp"
  | "woff" => some "font/woff"
  | "woff2" => some "font/woff2"
  | "ttf" => some "font/ttf"
  | "eot" => some "application/vnd.ms-fontobject"
  | "pdf" => some "application/pdf"
  | "txt" => some "text/plain; charset=utf-8"
  | "md" => some "text/markdown; charset=utf-8"
  | "xml" => some "text/xml; charset=utf-8"
  | "yaml" => some "text/yaml; charset=utf-8"
  | "yml" => some "text/yaml; charset=utf-8"
  | _ => none

/-- `CONTENT_TYPES[extension]` with the `text/plain; charset=utf-8`
fallback. -/
def contentTypeFor (ext : String) : String :=
  (CONTENT_TYPES ext).getD "text/plain; charset=utf-8"

/-- The `isTextFile` test of `handleR2Response` / `handleGitHubResponse`:
`extension in CONTENT_TYPES` and the MIME text includes `text`,
`javascript` or `json`. -/
def isTextFile (ext : String) : Bool :=
  match CONTENT_TYPES ext with
  | none => false
  | some ct => strIncludes ct "text" || strIncludes ct "javascript" || strIncludes ct "json"

def DEFAULT_GITHUB_OWNER : String := "austin-thesing"

/-! ## Oracles for the external collaborators -/

/-- The external collaborators of the worker.  `latestRelease` is the
`tag_name` of the latest release (`none` = the GitHub call failed and
`getLatestRelease` threw); `commitLookup` is `getCommit` (`none` = non-ok
response, i.e. the `Invalid commit hash` throw); `rawFetch` maps a
`raw.githubusercontent.com` URL to the file text (`none` = non-ok);
`jsMinify`/`cssMinify` are terser / CleanCSS (`none` = the minifier
threw). -/
structure GHEnv where
  latestRelease : String → Option String
  commitLookup : String → String → Option String
  rawFetch : String → Option String
  jsMinify : String → Option String
  cssMinify : String → Option String

/-! ## `minifyContent` -/

/-- `minifyContent(content, extension)`: best-effort minification for
`js` and `css`, identity for every other extension; a minifier throw is
caught and the original content returned. -/
def minifyContent (env : GHEnv) (content extension : String) : String :=
  if extension = "js" then (env.jsMinify content).getD content
  else if extension = "css" then (env.cssMinify content).getD content
  else content

/-! ## Version resolution (first half of `getFileFromGitHub`) -/

/-- The `targetVersion` / `actualVersion` / `isCommit` triple computed by
the head of `getFileFromGitHub`, after the `if (!isCommit) targetVersion =
targetVersion.replace(regex v)` step.  `none` = `getLatestRelease`
threw. -/
structure Resolved where
  targetVersion : String
  actualVersion : String
  isCommit : Bool
deriving DecidableEq, Repr

def resolveVersion (env : GHEnv) (repo version : String) : Option Resolved :=
  if version = "latest" then
    match env.latestRelease repo with
    | none => none
    | some tag => some ⟨stripLeadingV tag, tag, false⟩
  else if 7 ≤ strLength version then
    match env.commitLookup repo version with
    | some fullHash => some ⟨fullHash, strTake version 7, true⟩
    | none => some ⟨stripLeadingV version, version, false⟩
  else
    some ⟨stripLeadingV version, version, false⟩

/-- The `raw.githubusercontent.com` URL built by `getFileFromGitHub`:
commit resolutions fetch by raw SHA, everything else by the tag
re-prefixed with `v`. -/
def rawUrl (repo : String) (r : Resolved) (filePath : String) : String :=
  if r.isCommit then
    "https://raw.githubusercontent.com/" ++ DEFAULT_GITHUB_OWNER ++ "/" ++ repo ++ "/" ++
      r.targetVersion ++ "/" ++ filePath
  else
    "https://raw.githubusercontent.com/" ++ DEFAULT_GITHUB_OWNER ++ "/" ++ repo ++ "/v" ++
      r.targetVersion ++ "/" ++ filePath

/-- The R2 object key
`repo/actualVersion/filePath` plus `.min` when `shouldMinify`. -/
def r2Key (repo actualVersion filePath : String) (shouldMinify : Bool) : String :=
  repo ++ "/" ++ actualVersion ++ "/" ++ filePath ++ (if shouldMinify then ".min" else "")

/-- Modelled from the spec, for comparison only: §4.2 renders a
`ContentKey (repository, cacheVersionSegment, filePath, minified)` as the
path-like string `repository/cacheVersionSegment/filePath[.min]`. -/
def specContentKeyRender (repository cacheVersionSegment filePath : String)
    (minified : Bool) : String :=
  repository ++ "/" ++ cacheVersionSegment ++ "/" ++ filePath ++
    (if minified then ".min" else "")

/-! ## Headers -/

/-- Response headers as an association list.  `Headers.set` replaces an
existing entry; insertion position is immaterial to every property proved
here, so the model prepends. -/
abbrev Hdrs := List (String × String)

def getHeader (hs : Hdrs) (k : String) : Option String :=
  (List.find? (fun p => p.1 = k) hs).map (fun p => p.2)

def setHeader (hs : Hdrs) (k v : String) : Hdrs :=
  (k, v) :: List.filter (fun p => ¬ p.1 = k) hs

/-! ## Request model -/

/-- The request headers the pipeline reads.  `none` models an absent
header (JS `headers.get` returning `null`). -/
structure Req where
  accept : Option String
  acceptEncoding : Option String
  ifNoneMatch : Option String
deriving DecidableEq, Repr

/-- `acceptHeader.includes(application/javascript) || ...` where
`acceptHeader` is the Accept header or the empty string. -/
def isScriptRequest (req : Req) : Bool :=
  let a := req.accept.getD ""
  strIncludes a "application/javascript" || strIncludes a "text/javascript" ||
    strIncludes a "text/css"

/-- The Accept-Encoding header gzip test of the source
(optional-chained `includes`): an absent header short-circuits to
false. -/
def acceptsGzip (req : Req) : Bool :=
  match req.acceptEncoding with
  | none => false
  | some e => strIncludes e "gzip"

/-! ## Inner responses -/

/-- The response produced by `getFileFromGitHub` / `handleR2Response` /
`handleGitHubResponse`, plus effect flags for the frame properties.
`body` is the pre-compression text; `compressed` records whether the
gzip branch ran (the gzip bytes themselves are abstracted).
`r2Write` is the fire-and-forget `CDN_BUCKET.put` key/value dispatched
through `ctx.waitUntil`. -/
structure InnerResp where
  status : Nat
  body : String
  headers : Hdrs
  compressed : Bool
  originFetched : Bool
  minifyInvoked : Bool
  r2Write : Option (String × String)
deriving DecidableEq, Repr

/-! ## `getFileFromGitHub` -/

/-- Header object literal built by `getFileFromGitHub`. -/
def ghBaseHeaders (ext : String) : Hdrs :=
  [("Content-Type", contentTypeFor ext),
   ("Vary", "Accept-Encoding, Accept"),
   ("X-Content-Type-Options", "nosniff"),
   ("Content-Disposition", "inline")]

/-- `getFileFromGitHub(repo, version, filePath, env, ctx, shouldMinify,
request)`.  Resolution and fetch failures are the two `throw` sites that
escape the function (`Except.error` carries the `Error` message). -/
def getFileFromGitHub (env : GHEnv) (repo version filePath : String)
    (shouldMinify : Bool) (req : Req) : Except String InnerResp :=
  match resolveVersion env repo version with
  | none => .error "Failed to fetch release data from GitHub"
  | some r =>
    match env.rawFetch (rawUrl repo r filePath) with
    | none => .error "Failed to fetch file from GitHub"
    | some content =>
      let extension := fileExtension filePath
      let processedContent :=
        if shouldMinify then minifyContent env content extension else content
      let key := r2Key repo r.actualVersion filePath shouldMinify
      let gz := isScriptRequest req && acceptsGzip req
      .ok
        { status := 200
          body := processedContent
          headers :=
            if gz then setHeader (ghBaseHeaders extension) "Content-Encoding" "gzip"
            else ghBaseHeaders extension
          compressed := gz
          originFetched := true
          minifyInvoked := shouldMinify
          r2Write := some (key, processedContent) }

/-! ## `handleR2Response` -/

/-- An R2 object as seen by the worker: its key, stored text, `httpEtag`
and `uploaded.toUTCString()`. -/
structure R2Obj where
  key : String
  body : String
  httpEtag : String
  uploadedUTC : String
deriving DecidableEq, Repr

/-- Header object literal built by `handleR2Response`. -/
def r2BaseHeaders (ext : String) (o : R2Obj) : Hdrs :=
  [("Content-Type", contentTypeFor ext),
   ("Vary", "Accept-Encoding, Accept"),
   ("X-Content-Type-Options", "nosniff"),
   ("Content-Disposition", "inline"),
   ("ETag", o.httpEtag),
   ("Last-Modified", o.uploadedUTC),
   ("Cache-Control", "public, max-age=31536000, immutable"),
   ("CDN-Cache-Control", "max-age=31536000"),
   ("Cloudflare-CDN-Cache-Control", "max-age=31536000"),
   ("Access-Control-Allow-Origin", "*"),
   ("Access-Control-Expose-Headers", "Content-Length, Content-Type, ETag")]

/-- `handleR2Response(r2Object, extension, request)` from
`src/index.js`: serves the stored bytes (as text for text files), and
gzips exactly when the Accept header is a script/style context and the
client accepts gzip.  There is no minified-content check here. -/
def handleR2Response (o : R2Obj) (extension : String) (req : Req) : InnerResp :=
  let gz := isScriptRequest req && acceptsGzip req
  { status := 200
    body := o.body
    headers :=
      if gz then setHeader (r2BaseHeaders extension o) "Content-Encoding" "gzip"
      else r2BaseHeaders extension o
    compressed := gz
    originFetched := false
    minifyInvoked := false
    r2Write := none }

/-- The alternate `handleR2Response` of the modular build
(`handlers/responses.js` with Sentry): identical except that the
compression guard also requires that `r2Object.key` not contain
`.min.` anywhere. -/
def handleR2ResponseSentry (o : R2Obj) (extension : String) (req : Req) : InnerResp :=
  let isMinified := strIncludes o.key ".min."
  let gz := isScriptRequest req && !isMinified && acceptsGzip req
  { status := 200
    body := o.body
    headers :=
      if gz then setHeader (r2BaseHeaders extension o) "Content-Encoding" "gzip"
      else r2BaseHeaders extension o
    compressed := gz
    originFetched := false
    minifyInvoked := false
    r2Write := none }

/-- `handleGitHubResponse(repo, version, filePath, ...)`: forwards
`getFileFromGitHub`, re-reads the body (text files as text — a no-op in
this byte-abstracted model) and layers on the GitHub-path headers. -/
def handleGitHubResponse (env : GHEnv) (repo version filePath : String)
    (shouldMinify : Bool) (req : Req) : Except String InnerResp :=
  match getFileFromGitHub env repo version filePath shouldMinify req with
  | .error e => .error e
  | .ok resp =>
    let hs := setHeader resp.headers "X-Served-From" "GitHub"
    let hs := setHeader hs "Cache-Control" "public, max-age=31536000, immutable"
    let hs := setHeader hs "CDN-Cache-Control" "max-age=31536000"
    let hs := setHeader hs "Cloudflare-CDN-Cache-Control" "max-age=31536000"
    let hs := setHeader hs "Access-Control-Allow-Origin" "*"
    let hs :=
      if strEndsWith filePath ".js" then
        setHeader hs "Link"
          "</style.css>; rel=preload; as=style, </script.js>; rel=preload; as=script"
      else hs
    .ok { resp with headers := hs }

/-! ## The request pipeline (`export default { fetch }`) -/

/-- State visible to one request: the edge-cache entry `caches.default`
returns for the key of this request (`none` = miss), the R2 bucket contents,
and `Date.now()` at the time the final headers are built. -/
structure EdgeEntry where
  body : String
  headers : Hdrs
deriving DecidableEq, Repr

structure WState where
  edgeCache : Option EdgeEntry
  r2 : String → Option R2Obj
  now : Int

/-- Outcome of one `fetch` invocation.  `body = none` models
`new Response(null, ...)` (the 304 path).  The effect flags mirror those
of `InnerResp`; they are all false on paths that never reach the
origin/transform code. -/
structure PipeResult where
  status : Nat
  body : Option String
  headers : Hdrs
  compressed : Bool
  originFetched : Bool
  minifyInvoked : Bool
  r2Write : Option (String × String)
deriving DecidableEq, Repr

def errorResult (status : Nat) (msg : String) : PipeResult :=
  { status := status, body := some msg, headers := [], compressed := false,
    originFetched := false, minifyInvoked := false, r2Write := none }

/-- The ETag the router stamps on every successful response:
`"${repo}-${version}-${filePath}-${Date.now()}"` (in quotes). -/
def routerEtag (repo version filePath : String) (now : Int) : String :=
  "\"" ++ repo ++ "-" ++ version ++ "-" ++ filePath ++ "-" ++ toString now ++ "\""

/-- The final header pass of the router: `Cache-Control`,
`Access-Control-Allow-Origin`, `CF-Cache-Status` and the freshly minted
`ETag` are set on top of the headers of the inner response. -/
def finalize (inner : InnerResp) (r2Hit : Bool) (repo version filePath : String)
    (now : Int) : PipeResult :=
  let hs := setHeader inner.headers "Cache-Control" "public, max-age=31536000, immutable"
  let hs := setHeader hs "Access-Control-Allow-Origin" "*"
  let hs := setHeader hs "CF-Cache-Status" (if r2Hit then "R2_HIT" else "R2_MISS")
  let hs := setHeader hs "ETag" (routerEtag repo version filePath now)
  { status := inner.status
    body := some inner.body
    headers := hs
    compressed := inner.compressed
    originFetched := inner.originFetched
    minifyInvoked := inner.minifyInvoked
    r2Write := inner.r2Write }

/-- The inner `try` block of `fetch`, after the path has been parsed into
`repo`/`version`/`filePath` and the `.min` suffix handled: R2 lookup at
the literal version, the `latest` second lookup, dispatch to
`handleR2Response` or `handleGitHubResponse`, and the final header
pass.  A thrown error is caught and becomes the 404. -/
def serveParsed (env : GHEnv) (st : WState) (req : Req)
    (repo version filePath : String) (shouldMinify : Bool) : PipeResult :=
  let r2Path := r2Key repo version filePath shouldMinify
  let extension := fileExtension filePath
  match st.r2 r2Path with
  | some o => finalize (handleR2Response o extension req) true repo version filePath st.now
  | none =>
    if version = "latest" then
      match env.latestRelease repo with
      | none => errorResult 404 "File not found: Failed to fetch release data from GitHub"
      | some latestVersion =>
        match st.r2 (r2Key repo latestVersion filePath shouldMinify) with
        | some o =>
          finalize (handleR2Response o extension req) true repo version filePath st.now
        | none =>
          match handleGitHubResponse env repo version filePath shouldMinify req with
          | .error e => errorResult 404 ("File not found: " ++ e)
          | .ok inner => finalize inner false repo version filePath st.now
    else
      match handleGitHubResponse env repo version filePath shouldMinify req with
      | .error e => errorResult 404 ("File not found: " ++ e)
      | .ok inner => finalize inner false repo version filePath st.now

/-- `.min` handling in the router: a `.min.js` / `.min.css` suffix sets
`shouldMinify` and the suffix is removed with
`filePath.replace(.min, empty)` (first occurrence). -/
def minSuffixRequested (filePath : String) : Bool :=
  strEndsWith filePath ".min.js" || strEndsWith filePath ".min.css"

def stripMinSuffix (filePath : String) : String :=
  if minSuffixRequested filePath then jsReplaceFirst filePath ".min" else filePath

/-- The whole `fetch` handler for a request whose URL path (leading `/`
already removed) is `path`: special pages, the edge-cache /
`If-None-Match` check, path parsing, then `serveParsed`. -/
def cdnFetch (env : GHEnv) (st : WState) (req : Req) (path : String) : PipeResult :=
  if path = "speed-test" || path = "convert" then
    { status := 200, body := some "SPECIAL_PAGE_HTML",
      headers := [("Content-Type", "text/html"),
        ("Cache-Control", if path = "speed-test" then "no-store" else "public, max-age=3600")],
      compressed := false, originFetched := false, minifyInvoked := false, r2Write := none }
  else if path = "" then errorResult 404 "Not Found"
  else
    match st.edgeCache with
    | some cached =>
      let etag := req.ifNoneMatch.getD ""
      if etag ≠ "" && getHeader cached.headers "ETag" = some etag then
        { status := 304, body := none, headers := [], compressed := false,
          originFetched := false, minifyInvoked := false, r2Write := none }
      else
        { status := 200, body := some cached.body,
          headers := setHeader cached.headers "CF-Cache-Status" "HIT",
          compressed := false, originFetched := false, minifyInvoked := false,
          r2Write := none }
    | none =>
      match strSplitOnChar '/' path with
      | repo :: version :: rest =>
        if rest.length = 0 then
          errorResult 400 "Invalid path format. Use: /repo/version/file-path"
        else
          let filePath0 := strJoinSlash rest
          let shouldMinify := minSuffixRequested filePath0
          let filePath := stripMinSuffix filePath0
          if repo = "" || version = "" || filePath = "" then
            errorResult 400 "Invalid path format. Use: /repo/version/file-path"
          else
            serveParsed env st req repo version filePath shouldMinify
      | _ => errorResult 400 "Invalid path format. Use: /repo/version/file-path"

/-! ## `getLatestRelease` with its memoization cache -/

/-- One `GITHUB_CACHE` entry: `{ timestamp, data }`; `data` is the
`tag_name` of the release (the only field the pipeline reads). -/
structure CacheEntry where
  timestamp : Int
  data : String
deriving DecidableEq, Repr

def CACHE_TTL : Int := 300000

/-- `getLatestRelease(repo, env)` with the process-wide `GITHUB_CACHE`
made explicit.  Returns the release data, the updated cache, and whether
a GitHub lookup was performed; `none` models the throw on a non-ok
GitHub response. -/
def getLatestRelease (fetchRelease : String → Option String)
    (cache : List (String × CacheEntry)) (repo : String) (now : Int) :
    Option (String × List (String × CacheEntry) × Bool) :=
  let cacheKey := DEFAULT_GITHUB_OWNER ++ "/" ++ repo
  let fresh : Option (String × List (String × CacheEntry) × Bool) :=
    match fetchRelease repo with
    | none => none
    | some data => some (data, (cacheKey, ⟨now, data⟩) :: cache, true)
  match cache.lookup cacheKey with
  | some cached => if now - cached.timestamp < CACHE_TTL then some (cached.data, cache, false) else fresh
  | none => fresh

end DxdCdn


namespace DxdCdn

/-! ## Helper lemmas -/

lemma getHeader_setHeader_same (hs : Hdrs) (k v : String) :
    getHeader (setHeader hs k v) k = some v := by
  simp [getHeader, setHeader, List.find?]

lemma isPrefixOf_append_self (p l : List Char) : p.isPrefixOf (p ++ l) = true := by
  induction p with
  | nil => simp [List.isPrefixOf]
  | cons c t ih => simp [List.isPrefixOf, ih]

lemma listReplaceFirst_self_prefix (pat l2 : List Char) :
    listReplaceFirst (pat ++ l2) pat = l2 := by
  cases pat with
  | nil =>
    cases l2 with
    | nil => rfl
    | cons c r => simp [listReplaceFirst, List.isPrefixOf]
  | cons c p =>
    show listReplaceFirst (c :: (p ++ l2)) (c :: p) = l2
    rw [listReplaceFirst]
    have hpre : (c :: p).isPrefixOf (c :: (p ++ l2)) = true :=
      isPrefixOf_append_self (c :: p) l2
    rw [if_pos hpre]
    exact List.drop_left (c :: p) l2

lemma listReplaceFirst_first_occurrence (pat l2 : List Char) :
    ∀ l1 : List Char,
      (∀ i, i < l1.length → pat.isPrefixOf ((l1 ++ (pat ++ l2)).drop i) = false) →
      listReplaceFirst (l1 ++ (pat ++ l2)) pat = l1 ++ l2 := by
  intro l1
  induction l1 with
  | nil => intro _; simpa using listReplaceFirst_self_prefix pat l2
  | cons a t ih =>
    intro h
    show listReplaceFirst (a :: (t ++ (pat ++ l2))) pat = a :: (t ++ l2)
    rw [listReplaceFirst]
    have h0 : pat.isPrefixOf (a :: (t ++ (pat ++ l2))) = false := by
      simpa using h 0 (by simp)
    rw [if_neg (by simp [h0])]
    have := ih (fun i hi => by simpa using h (i + 1) (by simpa using hi))
    rw [this]

end DxdCdn

namespace DxdCdn

/-! ## Concrete fixtures used by counterexamples and witnesses -/

/-- A request with no relevant headers. -/
def plainReq : Req := { accept := none, acceptEncoding := none, ifNoneMatch := none }

/-- A GitHub environment in which no commit resolves, every raw fetch
returns `"RAW"`, and the JS minifier succeeds with `"MIN"`. -/
def tagEnv : GHEnv :=
  { latestRelease := fun _ => none
    commitLookup := fun _ _ => none
    rawFetch := fun _ => some "RAW"
    jsMinify := fun _ => some "MIN"
    cssMinify := fun _ => none }

/-- A GitHub environment in which `abcdef1234` resolves to the full SHA
`ff00ff00ff00` (whose prefix differs from that of the input). -/
def commitEnv : GHEnv :=
  { latestRelease := fun _ => none
    commitLookup := fun _ v => if v = "abcdef1234" then some "ff00ff00ff00" else none
    rawFetch := fun _ => some "RAW"
    jsMinify := fun _ => some "MIN"
    cssMinify := fun _ => none }

/-- An R2 object fixture for counterexamples and witnesses. -/
def storedObj : R2Obj :=
  { key := "stored", body := "STORED", httpEtag := "\"r2etag\"", uploadedUTC := "U" }

/-- C1: the claim renders the durable key for
`/myrepo/v1.0.0/dist/app.min.js` as `ContentKey (myrepo, 1.0.0,
dist/app.js, minified)` with the leading `v` stripped.  False: the worker
keys the durable tier with `actualVersion = version` verbatim, so the key
is `myrepo/v1.0.0/dist/app.js.min`; an object stored under the spec
`v`-stripped key is not found and the request still goes to origin. -/
theorem C1_counterexample :
    (cdnFetch tagEnv { edgeCache := none, r2 := fun _ => none, now := 0 } plainReq
        "myrepo/v1.0.0/dist/app.min.js").r2Write =
      some ("myrepo/v1.0.0/dist/app.js.min", "MIN") ∧
    "myrepo/v1.0.0/dist/app.js.min" ≠ specContentKeyRender "myrepo" "1.0.0" "dist/app.js" true ∧
    (cdnFetch tagEnv
        { edgeCache := none,
          r2 := fun k => if k = specContentKeyRender "myrepo" "1.0.0" "dist/app.js" true
            then some storedObj else none,
          now := 0 } plainReq "myrepo/v1.0.0/dist/app.min.js").originFetched = true := by
  refine ⟨?_, by decide, ?_⟩ <;> decide

/-- C1 (amended): for `/myrepo/v1.0.0/dist/app.min.js` the durable-tier
keying is `ContentKey (myrepo, v1.0.0, dist/app.js, minified = true)` —
the cache version segment is the *raw* specifier with its leading `v`
kept; only the `.min` suffix handling of the claim is as stated.  The
pipeline writes that key on a miss and hits it when it is populated. -/
theorem C1_durable_key_keeps_v :
    (cdnFetch tagEnv { edgeCache := none, r2 := fun _ => none, now := 0 } plainReq
        "myrepo/v1.0.0/dist/app.min.js").r2Write =
      some (specContentKeyRender "myrepo" "v1.0.0" "dist/app.js" true, "MIN") ∧
    (cdnFetch tagEnv
        { edgeCache := none,
          r2 := fun k => if k = specContentKeyRender "myrepo" "v1.0.0" "dist/app.js" true
            then some storedObj else none,
          now := 0 } plainReq "myrepo/v1.0.0/dist/app.min.js").originFetched = false := by
  constructor <;> decide

/-- C2: for a version specifier of length at least 7 that the host
resolves to a full SHA, the cache version segment is the first 7
characters of the *input* (whatever the SHA is), while the origin URL
uses the resolved full SHA; the R2 write key is built from that 7-char
segment. -/
theorem C2_commit_prefix_keying (env : GHEnv) (repo version filePath : String)
    (req : Req) (sha : String)
    (hv : version ≠ "latest") (hlen : 7 ≤ strLength version)
    (hc : env.commitLookup repo version = some sha) :
    resolveVersion env repo version = some ⟨sha, strTake version 7, true⟩ ∧
    rawUrl repo ⟨sha, strTake version 7, true⟩ filePath =
      "https://raw.githubusercontent.com/" ++ DEFAULT_GITHUB_OWNER ++ "/" ++ repo ++ "/" ++
        sha ++ "/" ++ filePath ∧
    (∀ content, env.rawFetch (rawUrl repo ⟨sha, strTake version 7, true⟩ filePath) = some content →
      ∀ m : Bool, ∃ inner, getFileFromGitHub env repo version filePath m req = .ok inner ∧
        inner.r2Write = some (r2Key repo (strTake version 7) filePath m, inner.body)) := by
  have h1 : resolveVersion env repo version = some ⟨sha, strTake version 7, true⟩ := by
    simp [resolveVersion, hv, hlen, hc]
  refine ⟨h1, rfl, ?_⟩
  intro content hf m
  simp only [getFileFromGitHub, h1, hf]
  exact ⟨_, rfl, rfl⟩

theorem C2_commit_prefix_keying_witness :
    (7 ≤ strLength "abcdef1234" ∧
      commitEnv.commitLookup "myrepo" "abcdef1234" = some "ff00ff00ff00") ∧
    resolveVersion commitEnv "myrepo" "abcdef1234" =
      some ⟨"ff00ff00ff00", "abcdef1", true⟩ :=
  ⟨⟨by decide, by decide⟩,
    (by decide : strTake "abcdef1234" 7 = "abcdef1") ▸
      (C2_commit_prefix_keying commitEnv "myrepo" "abcdef1234" "f.js" plainReq
        "ff00ff00ff00" (by decide) (by decide) (by decide)).1⟩

end DxdCdn

namespace DxdCdn

/-- C9: the claim says the `.min` immediately preceding the *final*
extension is the occurrence removed, even when the path has an earlier
`.min.` segment.  False: the router removes the first `.min` via
`String.replace`,
which removes the *first* occurrence, so `a.min.b/c.min.js` becomes
`a.b/c.min.js`, not the claimed `a.min.b/c.js`. -/
theorem C9_counterexample :
    minSuffixRequested "a.min.b/c.min.js" = true ∧
    stripMinSuffix "a.min.b/c.min.js" = "a.b/c.min.js" ∧
    "a.b/c.min.js" ≠ "a.min.b/c.js" := by
  refine ⟨by decide, by decide, by decide⟩

/-- C9 (amended): a `.min.js` / `.min.css` suffix marks a minification
request and the *first* occurrence of `.min` in the file path is removed
before any tier lookup (which is the suffix occurrence whenever no
earlier `.min` appears); the suffix is re-applied as a trailing `.min`
in the durable key and at the response layer. -/
theorem C9_strips_first_min (l1 l2 : List Char)
    (hfirst : ∀ i, i < l1.length →
      (".min".data).isPrefixOf ((l1 ++ (".min".data ++ l2)).drop i) = false)
    (hmin : minSuffixRequested ⟨l1 ++ (".min".data ++ l2)⟩ = true) :
    stripMinSuffix ⟨l1 ++ (".min".data ++ l2)⟩ = ⟨l1 ++ l2⟩ := by
  simp only [stripMinSuffix, hmin, if_true, jsReplaceFirst]
  exact congrArg String.mk (listReplaceFirst_first_occurrence (".min".data) l2 l1 hfirst)

theorem C9_strips_first_min_witness :
    (∀ i, i < ("dist/app".data).length →
      (".min".data).isPrefixOf ((("dist/app".data) ++ (".min".data ++ ".js".data)).drop i)
        = false) ∧
    stripMinSuffix ⟨"dist/app".data ++ (".min".data ++ ".js".data)⟩ =
      ⟨"dist/app".data ++ ".js".data⟩ :=
  ⟨by decide, C9_strips_first_min ("dist/app".data) (".js".data) (by decide) (by decide)⟩

/-- C10: a non-`latest` specifier that is not resolved as a commit
(short, or the commit lookup failed) is fetched from origin at the ref
`v` + (specifier minus one leading `v`); hence `v1.0.0` and `1.0.0`
yield the same origin URL while keying distinct durable-tier entries. -/
theorem C10_tag_origin_url (env : GHEnv) (repo version filePath : String)
    (hv : version ≠ "latest")
    (hnc : strLength version < 7 ∨ env.commitLookup repo version = none) :
    resolveVersion env repo version = some ⟨stripLeadingV version, version, false⟩ ∧
    rawUrl repo ⟨stripLeadingV version, version, false⟩ filePath =
      "https://raw.githubusercontent.com/" ++ DEFAULT_GITHUB_OWNER ++ "/" ++ repo ++ "/v" ++
        stripLeadingV version ++ "/" ++ filePath ∧
    rawUrl "r" ⟨stripLeadingV "v1.0.0", "v1.0.0", false⟩ "f.js" =
      rawUrl "r" ⟨stripLeadingV "1.0.0", "1.0.0", false⟩ "f.js" ∧
    r2Key "r" "v1.0.0" "f.js" false ≠ r2Key "r" "1.0.0" "f.js" false := by
  refine ⟨?_, rfl, by decide, by decide⟩
  by_cases hl : 7 ≤ strLength version
  · rcases hnc with h | h
    · omega
    · simp [resolveVersion, hv, hl, h]
  · simp [resolveVersion, hv, hl]

theorem C10_tag_origin_url_witness :
    ("1.0.0" ≠ "latest" ∧ strLength "1.0.0" < 7) ∧
    resolveVersion tagEnv "r" "1.0.0" = some ⟨"1.0.0", "1.0.0", false⟩ :=
  ⟨⟨by decide, by decide⟩,
    (C10_tag_origin_url tagEnv "r" "1.0.0" "f.js" (by decide) (Or.inl (by decide))).1⟩

end DxdCdn

namespace DxdCdn

/-- A request coming from a script tag that accepts gzip. -/
def scriptReq : Req :=
  { accept := some "application/javascript", acceptEncoding := some "gzip",
    ifNoneMatch := none }

lemma getHeader_ghBase_contentEncoding (ext : String) :
    getHeader (ghBaseHeaders ext) "Content-Encoding" = none := by
  simp [getHeader, ghBaseHeaders, List.find?]

lemma getHeader_r2Base_contentEncoding (ext : String) (o : R2Obj) :
    getHeader (r2BaseHeaders ext o) "Content-Encoding" = none := by
  simp [getHeader, r2BaseHeaders, List.find?]

/-- C5: minification is best-effort: a `js` or `css` minifier throw is
recovered with the original content, other extensions are untouched, and
a successful origin fetch still yields a 200 response carrying the
original body when the minifier fails. -/
theorem C5_minifier_failure_best_effort :
    (∀ (env : GHEnv) (c : String), env.jsMinify c = none → minifyContent env c "js" = c) ∧
    (∀ (env : GHEnv) (c : String), env.cssMinify c = none → minifyContent env c "css" = c) ∧
    (∀ (env : GHEnv) (c ext : String), ext ≠ "js" → ext ≠ "css" → minifyContent env c ext = c) ∧
    (∀ (env : GHEnv) (repo version filePath : String) (req : Req) (r : Resolved)
      (content : String),
      resolveVersion env repo version = some r →
      env.rawFetch (rawUrl repo r filePath) = some content →
      fileExtension filePath = "js" → env.jsMinify content = none →
      ∃ inner, getFileFromGitHub env repo version filePath true req = .ok inner ∧
        inner.status = 200 ∧ inner.body = content) := by
  refine ⟨?_, ?_, ?_, ?_⟩
  · intro env c h; simp [minifyContent, h]
  · intro env c h; simp [minifyContent, h]
  · intro env c ext h1 h2; simp [minifyContent, h1, h2]
  · intro env repo version filePath req r content hres hf hext hjs
    simp only [getFileFromGitHub, hres, hf]
    exact ⟨_, rfl, rfl, by simp [hext, minifyContent, hjs]⟩

/-- A GitHub environment whose JS minifier always throws. -/
def failMinEnv : GHEnv :=
  { latestRelease := fun _ => none
    commitLookup := fun _ _ => none
    rawFetch := fun _ => some "RAW"
    jsMinify := fun _ => none
    cssMinify := fun _ => none }

theorem C5_minifier_failure_best_effort_witness :
    failMinEnv.jsMinify "RAW" = none ∧ minifyContent failMinEnv "RAW" "js" = "RAW" :=
  ⟨rfl, C5_minifier_failure_best_effort.1 failMinEnv "RAW" rfl⟩

/-- C4: the claim requires condition (c) — content not already minified —
for gzip to be applied.  False for `src/index.js`: a `.min.js` request
fetched from origin is minified *and* gzipped, and an R2 hit on a `.min`
key is gzipped as well, whenever (a) and (b) alone hold. -/
theorem C4_counterexample :
    ((cdnFetch tagEnv { edgeCache := none, r2 := fun _ => none, now := 0 } scriptReq
        "myrepo/v1.0.0/dist/app.min.js").minifyInvoked = true ∧
      (cdnFetch tagEnv { edgeCache := none, r2 := fun _ => none, now := 0 } scriptReq
        "myrepo/v1.0.0/dist/app.min.js").compressed = true ∧
      getHeader (cdnFetch tagEnv { edgeCache := none, r2 := fun _ => none, now := 0 } scriptReq
        "myrepo/v1.0.0/dist/app.min.js").headers "Content-Encoding" = some "gzip") ∧
    (cdnFetch tagEnv
        { edgeCache := none,
          r2 := fun k => if k = "myrepo/v1.0.0/dist/app.js.min" then some storedObj else none,
          now := 0 } scriptReq "myrepo/v1.0.0/dist/app.min.js").compressed = true := by
  exact ⟨⟨by decide, by decide, by decide⟩, by decide⟩

/-- C4 (amended): in `src/index.js` gzip is applied exactly when (a) the
Accept header indicates a script/stylesheet context and (b)
Accept-Encoding includes gzip; the already-minified exclusion (c) exists
only in the `handleR2Response` of the Sentry build.  When compression is not
applied, no `Content-Encoding` header is set. -/
theorem C4_compression_conditions :
    (∀ (o : R2Obj) (ext : String) (req : Req),
      (handleR2Response o ext req).compressed = (isScriptRequest req && acceptsGzip req) ∧
      ((handleR2Response o ext req).compressed = false →
        getHeader (handleR2Response o ext req).headers "Content-Encoding" = none)) ∧
    (∀ (env : GHEnv) (repo version filePath : String) (m : Bool) (req : Req)
      (inner : InnerResp),
      getFileFromGitHub env repo version filePath m req = .ok inner →
      inner.compressed = (isScriptRequest req && acceptsGzip req) ∧
      (inner.compressed = false → getHeader inner.headers "Content-Encoding" = none)) ∧
    (∀ (o : R2Obj) (ext : String) (req : Req),
      (handleR2ResponseSentry o ext req).compressed =
        (isScriptRequest req && !strIncludes o.key ".min." && acceptsGzip req)) := by
  refine ⟨?_, ?_, ?_⟩
  · intro o ext req
    constructor
    · simp [handleR2Response]
    · intro h
      simp only [handleR2Response] at h ⊢
      rcases hgz : isScriptRequest req && acceptsGzip req with _ | _
      · simpa [hgz] using getHeader_r2Base_contentEncoding ext o
      · simp [hgz] at h
  · intro env repo version filePath m req inner h
    unfold getFileFromGitHub at h
    split at h
    · cases h
    · split at h
      · cases h
      · cases h
        refine ⟨rfl, ?_⟩
        intro hgz
        replace hgz : (isScriptRequest req && acceptsGzip req) = false := hgz
        show getHeader
          (if (isScriptRequest req && acceptsGzip req) = true
            then setHeader (ghBaseHeaders (fileExtension filePath)) "Content-Encoding" "gzip"
            else ghBaseHeaders (fileExtension filePath)) "Content-Encoding" = none
        rw [hgz]
        simpa using getHeader_ghBase_contentEncoding (fileExtension filePath)
  · intro o ext req
    simp [handleR2ResponseSentry]

theorem C4_compression_conditions_witness :
    (handleR2Response storedObj "js" plainReq).compressed = false ∧
    getHeader (handleR2Response storedObj "js" plainReq).headers "Content-Encoding" = none :=
  ⟨by decide, ((C4_compression_conditions.1 storedObj "js" plainReq).2) (by decide)⟩

/-- C7: a `latest` resolution populates the memoization cache, and a
second resolution within the 5-minute TTL returns the identical release
from the cache with no second GitHub lookup. -/
theorem C7_latest_memoized (fetchRelease : String → Option String)
    (cache0 : List (String × CacheEntry)) (repo d : String) (t0 t1 : Int)
    (h0 : cache0.lookup (DEFAULT_GITHUB_OWNER ++ "/" ++ repo) = none)
    (h1 : fetchRelease repo = some d)
    (h2 : t1 - t0 < CACHE_TTL) :
    getLatestRelease fetchRelease cache0 repo t0 =
      some (d, (DEFAULT_GITHUB_OWNER ++ "/" ++ repo, ⟨t0, d⟩) :: cache0, true) ∧
    getLatestRelease fetchRelease ((DEFAULT_GITHUB_OWNER ++ "/" ++ repo, ⟨t0, d⟩) :: cache0)
        repo t1 =
      some (d, (DEFAULT_GITHUB_OWNER ++ "/" ++ repo, ⟨t0, d⟩) :: cache0, false) := by
  constructor
  · simp [getLatestRelease, h0, h1]
  · simp [getLatestRelease, List.lookup, h2]

theorem C7_latest_memoized_witness :
    (([] : List (String × CacheEntry)).lookup (DEFAULT_GITHUB_OWNER ++ "/" ++ "myrepo") = none ∧
      ((0 : Int) - 0 < CACHE_TTL)) ∧
    getLatestRelease (fun _ => some "v2.0.0")
        [(DEFAULT_GITHUB_OWNER ++ "/" ++ "myrepo", ⟨0, "v2.0.0"⟩)] "myrepo" 0 =
      some ("v2.0.0", [(DEFAULT_GITHUB_OWNER ++ "/" ++ "myrepo", ⟨0, "v2.0.0"⟩)], false) :=
  ⟨⟨rfl, by decide⟩,
    (C7_latest_memoized (fun _ => some "v2.0.0") [] "myrepo" "v2.0.0" 0 0 rfl rfl
      (by decide)).2⟩

end DxdCdn

namespace DxdCdn

/-- C3: when the fast tier holds the previously returned response for the
request and the inbound `If-None-Match` equals its stored ETag, the
worker answers 304 with a null body before any origin fetch,
minification or compression can run. -/
theorem C3_if_none_match_304 (env : GHEnv) (st : WState) (req : Req) (path : String)
    (cached : EdgeEntry) (etag : String)
    (hp1 : path ≠ "speed-test") (hp2 : path ≠ "convert") (hp3 : path ≠ "")
    (hc : st.edgeCache = some cached)
    (hm : req.ifNoneMatch = some etag) (hne : etag ≠ "")
    (he : getHeader cached.headers "ETag" = some etag) :
    cdnFetch env st req path =
      { status := 304, body := none, headers := [], compressed := false,
        originFetched := false, minifyInvoked := false, r2Write := none } := by
  simp [cdnFetch, hp1, hp2, hp3, hc, hm, hne, he]

/-- The fast-tier entry and matching conditional request used by the C3
witness. -/
def cachedEntry : EdgeEntry := { body := "B", headers := [("ETag", "\"e1\"")] }

def inmReq : Req := { accept := none, acceptEncoding := none, ifNoneMatch := some "\"e1\"" }

theorem C3_if_none_match_304_witness :
    (getHeader cachedEntry.headers "ETag" = some "\"e1\"" ∧ ("\"e1\"" : String) ≠ "") ∧
    cdnFetch tagEnv { edgeCache := some cachedEntry, r2 := fun _ => none, now := 0 } inmReq
        "myrepo/v1.0.0/a.js" =
      { status := 304, body := none, headers := [], compressed := false,
        originFetched := false, minifyInvoked := false, r2Write := none } :=
  ⟨⟨rfl, by decide⟩,
    C3_if_none_match_304 tagEnv
      { edgeCache := some cachedEntry, r2 := fun _ => none, now := 0 } inmReq
      "myrepo/v1.0.0/a.js" cachedEntry "\"e1\"" (by decide) (by decide) (by decide)
      rfl rfl (by decide) rfl⟩

/-- C6: the claim says a durable-tier hit short-circuits the Origin
Fetcher *and the Content Transformer entirely*.  False for the
transformer: on an R2 hit with a script Accept header and gzip support,
`handleR2Response` still gzips the stored bytes and sets
`Content-Encoding`. -/
theorem C6_counterexample :
    (cdnFetch tagEnv
        { edgeCache := none,
          r2 := fun k => if k = "myrepo/v1.0.0/dist/app.js" then some storedObj else none,
          now := 0 } scriptReq "myrepo/v1.0.0/dist/app.js").originFetched = false ∧
    (cdnFetch tagEnv
        { edgeCache := none,
          r2 := fun k => if k = "myrepo/v1.0.0/dist/app.js" then some storedObj else none,
          now := 0 } scriptReq "myrepo/v1.0.0/dist/app.js").compressed = true ∧
    getHeader (cdnFetch tagEnv
        { edgeCache := none,
          r2 := fun k => if k = "myrepo/v1.0.0/dist/app.js" then some storedObj else none,
          now := 0 } scriptReq "myrepo/v1.0.0/dist/app.js").headers "Content-Encoding" =
      some "gzip" := by
  exact ⟨by decide, by decide, by decide⟩

/-- An environment whose latest release is `v2.0.0`; the C6 witness uses
it to exercise the second durable lookup done for `latest` requests. -/
def latestEnv : GHEnv :=
  { latestRelease := fun _ => some "v2.0.0"
    commitLookup := fun _ _ => none
    rawFetch := fun _ => some "RAW"
    jsMinify := fun _ => some "MIN"
    cssMinify := fun _ => none }

/-- C6 (amended): a durable-tier hit short-circuits the origin fetch and
minification — the stored bytes are served as-is per the `.min`
flag and nothing is written back — but per-request gzip compression is
still applied when the Accept / Accept-Encoding conditions hold.  Both
durable-hit paths are covered: a hit at the literal-version key, and,
for a `latest` request whose literal key misses, the hit at the key of
the resolved release tag. -/
theorem C6_durable_hit_short_circuit :
    (∀ (env : GHEnv) (st : WState) (req : Req) (repo version filePath : String)
      (m : Bool) (o : R2Obj),
      st.r2 (r2Key repo version filePath m) = some o →
      (serveParsed env st req repo version filePath m).originFetched = false ∧
      (serveParsed env st req repo version filePath m).minifyInvoked = false ∧
      (serveParsed env st req repo version filePath m).r2Write = none ∧
      (serveParsed env st req repo version filePath m).body = some o.body ∧
      (serveParsed env st req repo version filePath m).compressed =
        (isScriptRequest req && acceptsGzip req)) ∧
    (∀ (env : GHEnv) (st : WState) (req : Req) (repo filePath tag : String)
      (m : Bool) (o : R2Obj),
      st.r2 (r2Key repo "latest" filePath m) = none →
      env.latestRelease repo = some tag →
      st.r2 (r2Key repo tag filePath m) = some o →
      (serveParsed env st req repo "latest" filePath m).originFetched = false ∧
      (serveParsed env st req repo "latest" filePath m).minifyInvoked = false ∧
      (serveParsed env st req repo "latest" filePath m).r2Write = none ∧
      (serveParsed env st req repo "latest" filePath m).body = some o.body ∧
      (serveParsed env st req repo "latest" filePath m).compressed =
        (isScriptRequest req && acceptsGzip req)) := by
  constructor
  · intro env st req repo version filePath m o h
    simp [serveParsed, h, finalize, handleR2Response]
  · intro env st req repo filePath tag m o h1 h2 h3
    simp [serveParsed, h1, h2, h3, finalize, handleR2Response]

theorem C6_durable_hit_short_circuit_witness :
    (((fun k => if k = "myrepo/v1.0.0/dist/app.js" then some storedObj else none)
        (r2Key "myrepo" "v1.0.0" "dist/app.js" false) = some storedObj) ∧
      (serveParsed tagEnv
        { edgeCache := none,
          r2 := fun k => if k = "myrepo/v1.0.0/dist/app.js" then some storedObj else none,
          now := 0 } scriptReq "myrepo" "v1.0.0" "dist/app.js" false).originFetched = false) ∧
    (((fun k => if k = "myrepo/v2.0.0/dist/app.js" then some storedObj else none)
        (r2Key "myrepo" "latest" "dist/app.js" false) = none) ∧
      latestEnv.latestRelease "myrepo" = some "v2.0.0" ∧
      ((fun k => if k = "myrepo/v2.0.0/dist/app.js" then some storedObj else none)
        (r2Key "myrepo" "v2.0.0" "dist/app.js" false) = some storedObj) ∧
      (serveParsed latestEnv
        { edgeCache := none,
          r2 := fun k => if k = "myrepo/v2.0.0/dist/app.js" then some storedObj else none,
          now := 0 } scriptReq "myrepo" "latest" "dist/app.js" false).originFetched = false) :=
  ⟨⟨by decide,
    (C6_durable_hit_short_circuit.1 tagEnv
      { edgeCache := none,
        r2 := fun k => if k = "myrepo/v1.0.0/dist/app.js" then some storedObj else none,
        now := 0 } scriptReq "myrepo" "v1.0.0" "dist/app.js" false storedObj (by decide)).1⟩,
    ⟨by decide, rfl, by decide,
      (C6_durable_hit_short_circuit.2 latestEnv
        { edgeCache := none,
          r2 := fun k => if k = "myrepo/v2.0.0/dist/app.js" then some storedObj else none,
          now := 0 } scriptReq "myrepo" "dist/app.js" "v2.0.0" false storedObj
        (by decide) rfl (by decide)).1⟩⟩

end DxdCdn

namespace DxdCdn

lemma finalize_etag (inner : InnerResp) (r2Hit : Bool) (repo version filePath : String)
    (now : Int) :
    getHeader (finalize inner r2Hit repo version filePath now).headers "ETag" =
      some (routerEtag repo version filePath now) := by
  simp [finalize, getHeader_setHeader_same]

/-- C8: the claim makes the response headers, ETag included, a
deterministic function of (content type, textual-or-binary, download
flag).  False: the ETag minted by the router is
`"${repo}-${version}-${filePath}-${Date.now()}"`, so two requests that
agree on all three claimed inputs (same `js` extension, textual, no
download flag — `src/index.js` reads no download flag at all) but arrive
at different times get different ETag headers. -/
theorem C8_counterexample :
    getHeader (cdnFetch tagEnv
        { edgeCache := none,
          r2 := fun k => if k = "myrepo/v1.0.0/dist/app.js" then some storedObj else none,
          now := 0 } plainReq "myrepo/v1.0.0/dist/app.js").headers "ETag" ≠
      getHeader (cdnFetch tagEnv
        { edgeCache := none,
          r2 := fun k => if k = "myrepo/v1.0.0/dist/app.js" then some storedObj else none,
          now := 1 } plainReq "myrepo/v1.0.0/dist/app.js").headers "ETag" := by
  decide

/-- C8 (amended): on every successful (200) pipeline response the ETag
header is the deterministic function
`"${repo}-${version}-${filePath}-${Date.now()}"` of the parsed path and
the current time — so headers are deterministic only in those inputs,
not in the (content type, textual, download flag) triple of the
claim. -/
theorem C8_etag_formula (env : GHEnv) (st : WState) (req : Req)
    (repo version filePath : String) (m : Bool)
    (h : (serveParsed env st req repo version filePath m).status = 200) :
    getHeader (serveParsed env st req repo version filePath m).headers "ETag" =
      some (routerEtag repo version filePath st.now) := by
  rcases h1 : st.r2 (r2Key repo version filePath m) with _ | o
  · by_cases h2 : version = "latest"
    · subst h2
      rcases h3 : env.latestRelease repo with _ | tag
      · have hres : serveParsed env st req repo "latest" filePath m =
            errorResult 404 "File not found: Failed to fetch release data from GitHub" := by
          simp [serveParsed, h1, h3]
        rw [hres] at h
        simp [errorResult] at h
      · rcases h4 : st.r2 (r2Key repo tag filePath m) with _ | o2
        · rcases h5 : handleGitHubResponse env repo "latest" filePath m req with e | inner
          · have hres : serveParsed env st req repo "latest" filePath m =
                errorResult 404 ("File not found: " ++ e) := by
              simp [serveParsed, h1, h3, h4, h5]
            rw [hres] at h
            simp [errorResult] at h
          · have hres : serveParsed env st req repo "latest" filePath m =
                finalize inner false repo "latest" filePath st.now := by
              simp [serveParsed, h1, h3, h4, h5]
            rw [hres]
            exact finalize_etag _ _ _ _ _ _
        · have hres : serveParsed env st req repo "latest" filePath m =
              finalize (handleR2Response o2 (fileExtension filePath) req) true repo "latest"
                filePath st.now := by
            simp [serveParsed, h1, h3, h4]
          rw [hres]
          exact finalize_etag _ _ _ _ _ _
    · rcases h5 : handleGitHubResponse env repo version filePath m req with e | inner
      · have hres : serveParsed env st req repo version filePath m =
            errorResult 404 ("File not found: " ++ e) := by
          simp [serveParsed, h1, h2, h5]
        rw [hres] at h
        simp [errorResult] at h
      · have hres : serveParsed env st req repo version filePath m =
            finalize inner false repo version filePath st.now := by
          simp [serveParsed, h1, h2, h5]
        rw [hres]
        exact finalize_etag _ _ _ _ _ _
  · have hres : serveParsed env st req repo version filePath m =
        finalize (handleR2Response o (fileExtension filePath) req) true repo version filePath
          st.now := by
      simp [serveParsed, h1]
    rw [hres]
    exact finalize_etag _ _ _ _ _ _

theorem C8_etag_formula_witness :
    (serveParsed tagEnv
        { edgeCache := none,
          r2 := fun k => if k = "myrepo/v1.0.0/dist/app.js" then some storedObj else none,
          now := 0 } plainReq "myrepo" "v1.0.0" "dist/app.js" false).status = 200 ∧
    getHeader (serveParsed tagEnv
        { edgeCache := none,
          r2 := fun k => if k = "myrepo/v1.0.0/dist/app.js" then some storedObj else none,
          now := 0 } plainReq "myrepo" "v1.0.0" "dist/app.js" false).headers "ETag" =
      some "\"myrepo-v1.0.0-dist/app.js-0\"" :=
  ⟨by decide,
    (by decide : routerEtag "myrepo" "v1.0.0" "dist/app.js" 0 = "\"myrepo-v1.0.0-dist/app.js-0\"") ▸
      C8_etag_formula tagEnv
        { edgeCache := none,
          r2 := fun k => if k = "myrepo/v1.0.0/dist/app.js" then some storedObj else none,
          now := 0 } plainReq "myrepo" "v1.0.0" "dist/app.js" false (by decide)⟩

end DxdCdn
